import Mathlib

/-!
Verification of the navigation/route-simulation core of a map/globe
front-end.  The definitions below are shallow embeddings of the
TypeScript source: the geo-math utilities (`calculateBearing`,
`calculateDistance`, `generateRoutePath`, `filterLocations`) and the
navigation context (`generateStreetBasedRoute`, `calculateTurns`,
`startNavigation`, `endNavigation`, the progress timer and
`getProgress`).  Floating-point numbers are modelled as real numbers,
`Math.random()` as an explicit stream of reals, and `Date.now()` as an
explicit natural-number timestamp argument.
-/

/-- JavaScript `Math.atan2 y x`, modelled as the argument of the complex
number `x + y i`; its value lies in `(-π, π]` and `atan2 0 0 = 0`. -/
noncomputable def atan2 (y x : ℝ) : ℝ := Complex.arg ⟨x, y⟩

/-- `calculateBearing` from `src/utils/locationUtils.ts`: initial
great-circle bearing in degrees, normalized into `[0, 360)` by adding
360 when the raw atan2 result is negative. -/
noncomputable def calculateBearing (startLat startLng destLat destLng : ℝ) : ℝ :=
  let startLatRad := startLat * Real.pi / 180
  let startLngRad := startLng * Real.pi / 180
  let destLatRad := destLat * Real.pi / 180
  let destLngRad := destLng * Real.pi / 180
  let y := Real.sin (destLngRad - startLngRad) * Real.cos destLatRad
  let x := Real.cos startLatRad * Real.sin destLatRad -
           Real.sin startLatRad * Real.cos destLatRad * Real.cos (destLngRad - startLngRad)
  let bearing := atan2 y x * 180 / Real.pi
  if bearing < 0 then bearing + 360 else bearing

/-- `calculateDistance` from `src/utils/locationUtils.ts`: haversine
great-circle distance in kilometers with Earth radius 6371 km. -/
noncomputable def calculateDistance (startLat startLng destLat destLng : ℝ) : ℝ :=
  let dLat := (destLat - startLat) * Real.pi / 180
  let dLng := (destLng - startLng) * Real.pi / 180
  let a := Real.sin (dLat / 2) * Real.sin (dLat / 2) +
           Real.cos (startLat * Real.pi / 180) * Real.cos (destLat * Real.pi / 180) *
           Real.sin (dLng / 2) * Real.sin (dLng / 2)
  let c := 2 * atan2 (Real.sqrt a) (Real.sqrt (1 - a))
  6371 * c

/-- A geographic point as used by the navigation context
(`Location` interface): coordinates plus optional name and bearing. -/
structure Location where
  latitude : ℝ
  longitude : ℝ
  name : Option String := none
  bearing : Option ℝ := none

/-- `generateRoutePath` from `src/utils/locationUtils.ts`: `pointsCount + 1`
points linearly interpolated from start to destination. -/
noncomputable def generateRoutePath (startLat startLng destLat destLng : ℝ)
    (pointsCount : ℕ) : List Location :=
  (List.range (pointsCount + 1)).map fun (i : ℕ) =>
    let fraction : ℝ := (i : ℝ) / (pointsCount : ℝ)
    { latitude := startLat + fraction * (destLat - startLat),
      longitude := startLng + fraction * (destLng - startLng) }

/-- JavaScript strings are modelled as lists of characters. -/
abbrev JsStr := List Char

/-- JavaScript `toLowerCase()`, character by character. -/
def jsToLower (s : JsStr) : JsStr := s.map Char.toLower

/-- JavaScript `trim()`: strip leading and trailing whitespace. -/
def jsTrim (s : JsStr) : JsStr :=
  ((s.dropWhile Char.isWhitespace).reverse.dropWhile Char.isWhitespace).reverse

/-- Does the character list `sub` occur as a prefix of the second list?
Building block for JavaScript `String.prototype.includes`. -/
def matchesAt : List Char → List Char → Bool
  | _, [] => true
  | [], _ :: _ => false
  | c :: cs, d :: ds => c == d && matchesAt cs ds

/-- Does `sub` occur contiguously inside the second list?  This models
JavaScript `s.includes(sub)` with `hasSubstr sub s`. -/
def hasSubstr (sub : List Char) : List Char → Bool
  | [] => matchesAt [] sub
  | c :: cs => matchesAt (c :: cs) sub || hasSubstr sub cs

/-- Models `field?.toLowerCase().includes(nq)` on an optional field:
an absent field never matches. -/
def optIncl (o : Option JsStr) (nq : JsStr) : Bool :=
  match o with
  | some s => hasSubstr nq (jsToLower s)
  | none => false

/-- The `LocationAddress` interface of `src/utils/locationUtils.ts`. -/
structure LocationAddress where
  name : Option JsStr := none
  street : Option JsStr := none
  district : Option JsStr := none
  city : Option JsStr := none
  state : Option JsStr := none
  country : Option JsStr := none
  postalCode : Option JsStr := none

/-- The `LocationResult` interface of `src/utils/locationUtils.ts`. -/
structure LocationResult where
  id : JsStr
  name : JsStr
  description : Option JsStr := none
  category : Option JsStr := none
  address : Option LocationAddress := none
  latitude : ℝ
  longitude : ℝ
  isFavorite : Option Bool := none

/-- The match test applied to each location by `filterLocations`:
name, then the six searched address sub-fields, then category, then
description, each lowercased and tested for the normalized query. -/
def matchesQuery (nq : JsStr) (loc : LocationResult) : Bool :=
  hasSubstr nq (jsToLower loc.name) ||
  (match loc.address with
   | some a =>
     optIncl a.street nq || optIncl a.district nq || optIncl a.city nq ||
     optIncl a.state nq || optIncl a.country nq || optIncl a.postalCode nq
   | none => false) ||
  optIncl loc.category nq ||
  optIncl loc.description nq

/-- `filterLocations` from `src/utils/locationUtils.ts`: empty result for a
query that trims to the empty string, otherwise a filter with the
lowercased, trimmed query. -/
def filterLocations (locations : List LocationResult) (query : JsStr) :
    List LocationResult :=
  if jsTrim query = [] then []
  else locations.filter (matchesQuery (jsTrim (jsToLower query)))

/-- The fields of a location that the specification says are searched:
the name, the present address sub-fields, the category and the
description. -/
def fieldsOf (loc : LocationResult) : List JsStr :=
  [loc.name] ++
  (match loc.address with
   | some a => [a.street, a.district, a.city, a.state, a.country, a.postalCode].filterMap id
   | none => []) ++
  loc.category.toList ++ loc.description.toList

/-- The specification's per-location predicate: some searched field
contains the normalized (lowercased, trimmed) query as a substring. -/
def specMatch (q : JsStr) (loc : LocationResult) : Bool :=
  (fieldsOf loc).any fun f => hasSubstr (jsTrim (jsToLower q)) (jsToLower f)

/-- The `Waypoint` interface of the navigation context: a location plus a
string id generated from `Date.now()` at creation time. -/
structure Waypoint where
  latitude : ℝ
  longitude : ℝ
  name : Option String := none
  bearing : Option ℝ := none
  id : String
  distanceFromStart : Option ℝ := none
  arrivalTime : Option ℝ := none

/-- The location carried by a waypoint (a `Waypoint` is used where a
`Location` is expected). -/
def Waypoint.toLocation (w : Waypoint) : Location :=
  { latitude := w.latitude, longitude := w.longitude, name := w.name,
    bearing := w.bearing }

/-- The `TurnDirection` interface: one entry of the turn-by-turn list. -/
structure TurnDirection where
  fromBearing : ℝ
  toBearing : ℝ
  instruction : String
  distance : ℝ
  location : Location

/-- `addWaypoint`: append a waypoint whose id is `Date.now().toString()`;
the current timestamp is an explicit argument `now`. -/
def addWaypoint (now : ℕ) (location : Location) (ws : List Waypoint) :
    List Waypoint :=
  ws ++ [{ latitude := location.latitude, longitude := location.longitude,
           name := location.name, bearing := location.bearing,
           id := toString now }]

/-- `removeWaypoint`: keep the waypoints whose id differs. -/
def removeWaypoint (id : String) (ws : List Waypoint) : List Waypoint :=
  ws.filter fun wp => wp.id != id

/-- `reorderWaypoints`: look each supplied id up in the current sequence and
drop the ids that are not found (`.map(find).filter(defined)`). -/
def reorderWaypoints (ids : List String) (ws : List Waypoint) :
    List Waypoint :=
  ids.filterMap fun id => ws.find? fun wp => wp.id == id

/-- JavaScript `Array.prototype.splice(n, 0, a)`: insert `a` at index `n`. -/
def splice (l : List α) (n : ℕ) (a : α) : List α :=
  l.take n ++ a :: l.drop n

/-- The default used for out-of-range list indexing (never reached on the
index ranges the source uses). -/
def defaultLoc : Location := { latitude := 0, longitude := 0 }

/-- The detour-insertion post-processing loop of
`generateStreetBasedRoute`: walk the interior points two at a time and,
with probability one half, splice in a diagonally offset midpoint.
`rand` is the stream of `Math.random()` values and `k` the index of the
next unconsumed one; the returned number is the new `k`. -/
noncomputable def detourLoop (rand : ℕ → ℝ) (path : List Location) (i k : ℕ) :
    List Location × ℕ :=
  if i < path.length - 1 then
    if rand k > 0.5 ∧ i + 1 < path.length then
      let p1 := path.getD i defaultLoc
      let p2 := path.getD (i + 1) defaultLoc
      let midLat := (p1.latitude + p2.latitude) / 2
      let midLng := (p1.longitude + p2.longitude) / 2
      let offset : ℝ := 0.002 * (if rand (k + 1) > 0.5 then 1 else -1)
      detourLoop rand
        (splice path (i + 1)
          { latitude := midLat + offset, longitude := midLng + offset })
        (i + 3) (k + 2)
    else
      detourLoop rand path (i + 2) (k + 1)
  else
    (path, k)
termination_by path.length - i
decreasing_by
  · simp only [splice, List.length_append, List.length_take, List.length_cons,
      List.length_drop]
    omega
  · omega

/-- The number of grid steps the street-route generator uses along one
axis: `Math.floor(|diff| / 0.005)` when `|diff| > 0.01`, otherwise 1. -/
noncomputable def gridSteps (diff : ℝ) : ℕ :=
  if |diff| > 0.01 then (⌊|diff| / 0.005⌋).toNat else 1

/-- The intermediary grid points of `generateStreetBasedRoute`: steps
along the dominant axis first, then along the other axis, each point
jittered with the next `Math.random()` value. -/
noncomputable def gridPoints (rand : ℕ → ℝ) (k : ℕ)
    (startLat startLng endLat endLng : ℝ) : List Location :=
  let latDiff := endLat - startLat
  let lngDiff := endLng - startLng
  let latSteps := gridSteps latDiff
  let lngSteps := gridSteps lngDiff
  if |latDiff| > |lngDiff| then
    (List.range latSteps).map (fun j =>
      { latitude := startLat + (latDiff / (latSteps : ℝ)) * ((j : ℝ) + 1),
        longitude := startLng + (rand (k + j) - 0.5) * 0.0005 })
    ++ (List.range lngSteps).map (fun j =>
      { latitude := (startLat + latDiff) + (rand (k + latSteps + j) - 0.5) * 0.0005,
        longitude := startLng + (lngDiff / (lngSteps : ℝ)) * ((j : ℝ) + 1) })
  else
    (List.range lngSteps).map (fun j =>
      { latitude := startLat + (rand (k + j) - 0.5) * 0.0005,
        longitude := startLng + (lngDiff / (lngSteps : ℝ)) * ((j : ℝ) + 1) })
    ++ (List.range latSteps).map (fun j =>
      { latitude := startLat + (latDiff / (latSteps : ℝ)) * ((j : ℝ) + 1),
        longitude := (startLng + lngDiff) + (rand (k + lngSteps + j) - 0.5) * 0.0005 })

/-- `generateStreetBasedRoute` from the navigation context: the exact
start point, then the jittered grid points, then the stochastic detour
pass, then the exact end point.  Returns the path together with the
index of the next unconsumed random value. -/
noncomputable def generateStreetBasedRoute (rand : ℕ → ℝ) (k : ℕ)
    (startLat startLng endLat endLng : ℝ) : List Location × ℕ :=
  let basePath : List Location :=
    { latitude := startLat, longitude := startLng } ::
      gridPoints rand k startLat startLng endLat endLng
  let k1 := k + gridSteps (endLat - startLat) + gridSteps (endLng - startLng)
  let d : List Location × ℕ :=
    if basePath.length > 3 then detourLoop rand basePath 1 k1 else (basePath, k1)
  (d.1 ++ [{ latitude := endLat, longitude := endLng }], d.2)

/-- The segment loop of `startNavigation`: one street-based sub-route per
consecutive pair of `[currentLocation, ...waypoints, destination]`,
dropping the final point of every sub-route but the last. -/
noncomputable def buildCompletePath (rand : ℕ → ℝ) :
    ℕ → Location → List Location → List Location × ℕ
  | k, _, [] => ([], k)
  | k, cur, [d] =>
    generateStreetBasedRoute rand k cur.latitude cur.longitude d.latitude d.longitude
  | k, cur, d :: e :: rest =>
    let seg := generateStreetBasedRoute rand k cur.latitude cur.longitude
      d.latitude d.longitude
    let tail := buildCompletePath rand seg.2 d (e :: rest)
    (seg.1.dropLast ++ tail.1, tail.2)

/-- Total path length in kilometers: the sum of the haversine distances of
consecutive point pairs (the loop inside `calculateETA`). -/
noncomputable def pathDistance : List Location → ℝ
  | a :: b :: rest =>
    calculateDistance a.latitude a.longitude b.latitude b.longitude +
      pathDistance (b :: rest)
  | _ => 0

/-- `calculateETA`: total distance and the arrival timestamp assuming a
constant 50 km/h, starting from the explicit current time `now` (ms). -/
noncomputable def calculateETA (now : ℝ) (path : List Location) : ℝ × ℝ :=
  (now + pathDistance path / 50 * 60 * 60 * 1000, pathDistance path)

/-- Bearing of the route segment from point `i` to point `j` of a path. -/
noncomputable def segBearing (path : List Location) (i j : ℕ) : ℝ :=
  calculateBearing (path.getD i defaultLoc).latitude
    (path.getD i defaultLoc).longitude
    (path.getD j defaultLoc).latitude (path.getD j defaultLoc).longitude

/-- JavaScript truncated division rounding (toward zero). -/
noncomputable def truncJS (q : ℝ) : ℤ := if 0 ≤ q then ⌊q⌋ else ⌈q⌉

/-- JavaScript `x % y`: the remainder with the sign of the dividend. -/
noncomputable def jsMod (x y : ℝ) : ℝ := x - y * truncJS (x / y)

/-- The normalized bearing change at interior point `i` of a path:
`(nextBearing - prevBearing + 360) % 360`. -/
noncomputable def bearingChange (path : List Location) (i : ℕ) : ℝ :=
  jsMod (segBearing path i (i + 1) - segBearing path (i - 1) i + 360) 360

/-- The instruction chosen for a bearing change, following the if-chain of
`calculateTurns`. -/
noncomputable def turnInstructionFor (bc : ℝ) : String :=
  if 30 < bc ∧ bc < 150 then "Turn right"
  else if 150 ≤ bc ∧ bc ≤ 210 then "Make a U-turn"
  else if 210 < bc ∧ bc < 330 then "Turn left"
  else "Continue straight"

/-- The turn entry `calculateTurns` builds for interior point `i`. -/
noncomputable def mkInteriorTurn (path : List Location) (i : ℕ) : TurnDirection :=
  { fromBearing := segBearing path (i - 1) i,
    toBearing := segBearing path i (i + 1),
    instruction := turnInstructionFor (bearingChange path i),
    distance := calculateDistance (path.getD (i - 1) defaultLoc).latitude
      (path.getD (i - 1) defaultLoc).longitude
      (path.getD i defaultLoc).latitude (path.getD i defaultLoc).longitude,
    location := path.getD i defaultLoc }

/-- The synthetic start marker `calculateTurns` emits first. -/
noncomputable def startTurn (path : List Location) : TurnDirection :=
  { fromBearing := segBearing path 0 1, toBearing := segBearing path 0 1,
    instruction := "Start navigation", distance := 0,
    location := path.getD 0 defaultLoc }

/-- The synthetic arrival marker `calculateTurns` emits last. -/
noncomputable def arriveTurn (path : List Location) : TurnDirection :=
  { fromBearing := segBearing path (path.length - 2) (path.length - 1),
    toBearing := 0, instruction := "Arrive at destination",
    distance := calculateDistance
      (path.getD (path.length - 2) defaultLoc).latitude
      (path.getD (path.length - 2) defaultLoc).longitude
      (path.getD (path.length - 1) defaultLoc).latitude
      (path.getD (path.length - 1) defaultLoc).longitude,
    location := path.getD (path.length - 1) defaultLoc }

/-- The interior loop of `calculateTurns` (`for i = 1; i < length - 1`):
a turn entry is appended only when `|bearingChange - 180| > 20`. -/
noncomputable def turnsLoop (path : List Location) (i : ℕ) : List TurnDirection :=
  if i < path.length - 1 then
    (if |bearingChange path i - 180| > 20 then [mkInteriorTurn path i] else [])
      ++ turnsLoop path (i + 1)
  else []
termination_by path.length - i
decreasing_by omega

/-- `calculateTurns` from the navigation context: empty for paths of fewer
than 3 points, otherwise the start marker, the filtered interior turns
and the arrival marker. -/
noncomputable def calculateTurns (path : List Location) : List TurnDirection :=
  if path.length < 3 then []
  else startTurn path :: (turnsLoop path 1 ++ [arriveTurn path])

/-- The state owned by the navigation context provider. -/
structure NavState where
  currentLocation : Option Location := none
  destination : Option Location := none
  routePath : List Location := []
  waypoints : List Waypoint := []
  turns : List TurnDirection := []
  isNavigating : Bool := false
  estimatedTimeOfArrival : Option ℝ := none
  estimatedDistance : Option ℝ := none
  currentStep : ℕ := 0

/-- The provider's initial state: everything unset. -/
def initState : NavState := {}

/-- `setCurrentLocation`. -/
def navSetCurrentLocation (l : Location) (s : NavState) : NavState :=
  { s with currentLocation := some l }

/-- `setDestination`. -/
def navSetDestination (l : Location) (s : NavState) : NavState :=
  { s with destination := some l }

/-- `addWaypoint` lifted to the navigation state. -/
def navAddWaypoint (now : ℕ) (l : Location) (s : NavState) : NavState :=
  { s with waypoints := addWaypoint now l s.waypoints }

/-- `removeWaypoint` lifted to the navigation state. -/
def navRemoveWaypoint (id : String) (s : NavState) : NavState :=
  { s with waypoints := removeWaypoint id s.waypoints }

/-- `reorderWaypoints` lifted to the navigation state. -/
def navReorderWaypoints (ids : List String) (s : NavState) : NavState :=
  { s with waypoints := reorderWaypoints ids s.waypoints }

/-- `startNavigation`: a no-op (apart from an advisory toast) when either
endpoint is missing; otherwise build the complete street-based path
through the waypoints, derive the turns, reset the step cursor and set
the ETA and distance.  `rand` is the `Math.random()` stream and `now`
the current time in milliseconds. -/
noncomputable def startNavigation (rand : ℕ → ℝ) (now : ℝ) (s : NavState) :
    NavState :=
  match s.currentLocation, s.destination with
  | some cur, some dest =>
    let completePath :=
      (buildCompletePath rand 0 cur (s.waypoints.map Waypoint.toLocation ++ [dest])).1
    let eta := calculateETA now completePath
    { s with
      routePath := completePath,
      isNavigating := true,
      turns := calculateTurns completePath,
      currentStep := 0,
      estimatedTimeOfArrival := some eta.1,
      estimatedDistance := some eta.2 }
  | _, _ => s

/-- `endNavigation`: clear the session-derived fields, leave the
endpoints and the waypoints alone. -/
def endNavigation (s : NavState) : NavState :=
  { s with
    isNavigating := false,
    routePath := [],
    turns := [],
    currentStep := 0,
    estimatedTimeOfArrival := none,
    estimatedDistance := none }

/-- One tick of the 10-second progress interval: inactive unless
navigating with a nonempty turn list, and advancing the step cursor only
strictly below the last turn index. -/
def progressTick (s : NavState) : NavState :=
  if s.isNavigating = false ∨ s.turns.length = 0 then s
  else if s.currentStep < s.turns.length - 1 then
    { s with currentStep := s.currentStep + 1 }
  else s

/-- `getProgress`: 0 unless navigating with a known distance and a
positive step cursor; otherwise the distance of the passed turns over the
total distance, as a percentage clamped to `[0, 100]`. -/
noncomputable def getProgress (s : NavState) : ℝ :=
  match s.estimatedDistance with
  | none => 0
  | some d =>
    if s.isNavigating = false ∨ s.currentStep = 0 then 0
    else
      min 100 (max 0
        (((s.turns.take s.currentStep).map TurnDirection.distance).sum / d * 100))

/-- The navigation states reachable through the public mutators of the
context, starting from the initial state.  Timestamps, random streams and
argument values are arbitrary. -/
inductive Reach : NavState → Prop
  | init : Reach initState
  | setCur (l : Location) {s : NavState} : Reach s → Reach (navSetCurrentLocation l s)
  | setDest (l : Location) {s : NavState} : Reach s → Reach (navSetDestination l s)
  | addW (now : ℕ) (l : Location) {s : NavState} : Reach s → Reach (navAddWaypoint now l s)
  | removeW (id : String) {s : NavState} : Reach s → Reach (navRemoveWaypoint id s)
  | reorderW (ids : List String) {s : NavState} : Reach s → Reach (navReorderWaypoints ids s)
  | startNav (rand : ℕ → ℝ) (now : ℝ) {s : NavState} : Reach s → Reach (startNavigation rand now s)
  | endNav {s : NavState} : Reach s → Reach (endNavigation s)
  | tick {s : NavState} : Reach s → Reach (progressTick s)

/-- The waypoint sequences reachable through the three waypoint
mutators alone, with arbitrary timestamps and id lists. -/
inductive WReach : List Waypoint → Prop
  | init : WReach []
  | add (now : ℕ) (l : Location) {ws : List Waypoint} :
      WReach ws → WReach (addWaypoint now l ws)
  | remove (id : String) {ws : List Waypoint} :
      WReach ws → WReach (removeWaypoint id ws)
  | reorder (ids : List String) {ws : List Waypoint} :
      WReach ws → WReach (reorderWaypoints ids ws)

/-- The waypoint sequences reachable when every `addWaypoint` call gets a
timestamp whose string form differs from every id already present and
every `reorderWaypoints` call gets a duplicate-free id list. -/
inductive WReachOK : List Waypoint → Prop
  | init : WReachOK []
  | add (now : ℕ) (l : Location) {ws : List Waypoint} :
      WReachOK ws → (∀ w ∈ ws, w.id ≠ toString now) →
      WReachOK (addWaypoint now l ws)
  | remove (id : String) {ws : List Waypoint} :
      WReachOK ws → WReachOK (removeWaypoint id ws)
  | reorder (ids : List String) {ws : List Waypoint} :
      WReachOK ws → ids.Nodup → WReachOK (reorderWaypoints ids ws)

theorem matchesAt_nil_right (l : List Char) : matchesAt l [] = true := by
  cases l <;> rfl

theorem calculateDistance_nonneg (p q r t : ℝ) : 0 ≤ calculateDistance p q r t := by
  unfold calculateDistance atan2
  have him : 0 ≤ (⟨Real.sqrt (1 - (Real.sin ((r - p) * Real.pi / 180 / 2) *
      Real.sin ((r - p) * Real.pi / 180 / 2) +
      Real.cos (p * Real.pi / 180) * Real.cos (r * Real.pi / 180) *
      Real.sin ((t - q) * Real.pi / 180 / 2) * Real.sin ((t - q) * Real.pi / 180 / 2))),
      Real.sqrt (Real.sin ((r - p) * Real.pi / 180 / 2) *
      Real.sin ((r - p) * Real.pi / 180 / 2) +
      Real.cos (p * Real.pi / 180) * Real.cos (r * Real.pi / 180) *
      Real.sin ((t - q) * Real.pi / 180 / 2) * Real.sin ((t - q) * Real.pi / 180 / 2))⟩ : ℂ).arg := by
    exact Complex.arg_nonneg_iff.mpr (Real.sqrt_nonneg _)
  nlinarith [him]

/-- C3: for every prior state, `endNavigation` clears the route, the
turns, the step cursor, the ETA and the distance, sets `isNavigating`
to false, and leaves the waypoints, the current location and the
destination unchanged. -/
theorem C3_endNavigation_frame (s : NavState) :
    (endNavigation s).routePath = [] ∧ (endNavigation s).turns = [] ∧
    (endNavigation s).currentStep = 0 ∧
    (endNavigation s).estimatedTimeOfArrival = none ∧
    (endNavigation s).estimatedDistance = none ∧
    (endNavigation s).isNavigating = false ∧
    (endNavigation s).waypoints = s.waypoints ∧
    (endNavigation s).currentLocation = s.currentLocation ∧
    (endNavigation s).destination = s.destination := by
  refine ⟨rfl, rfl, rfl, rfl, rfl, rfl, rfl, rfl, rfl⟩

/-- C4: when either endpoint is missing, `startNavigation` leaves the
whole state unchanged (in particular `isNavigating`, the route, the
turns, the waypoints, the cursor, the ETA and the distance); being a
total function it raises no exception. -/
theorem C4_startNavigation_noop (rand : ℕ → ℝ) (now : ℝ) (s : NavState)
    (h : s.currentLocation = none ∨ s.destination = none) :
    startNavigation rand now s = s := by
  unfold startNavigation
  rcases h with h | h
  · rw [h]
  · rw [h]
    cases s.currentLocation <;> rfl

/-- Witness for C4 at the initial state, whose endpoints are unset. -/
theorem C4_startNavigation_noop_witness :
    startNavigation (fun _ => 0) 0 initState = initState :=
  C4_startNavigation_noop (fun _ => 0) 0 initState (Or.inl rfl)

theorem bearing_raw_bounds (y x : ℝ) :
    -180 < atan2 y x * 180 / Real.pi ∧ atan2 y x * 180 / Real.pi ≤ 180 := by
  unfold atan2
  have hpi := Real.pi_pos
  have h1 := Complex.neg_pi_lt_arg (⟨x, y⟩ : ℂ)
  have h2 := Complex.arg_le_pi (⟨x, y⟩ : ℂ)
  constructor
  · rw [lt_div_iff₀ hpi]
    nlinarith
  · rw [div_le_iff₀ hpi]
    nlinarith

theorem calculateBearing_mem (a b c d : ℝ) :
    0 ≤ calculateBearing a b c d ∧ calculateBearing a b c d < 360 := by
  unfold calculateBearing
  simp only []
  obtain ⟨h1, h2⟩ := bearing_raw_bounds
    (Real.sin (d * Real.pi / 180 - b * Real.pi / 180) * Real.cos (c * Real.pi / 180))
    (Real.cos (a * Real.pi / 180) * Real.sin (c * Real.pi / 180) -
     Real.sin (a * Real.pi / 180) * Real.cos (c * Real.pi / 180) *
     Real.cos (d * Real.pi / 180 - b * Real.pi / 180))
  split <;> constructor <;> linarith

theorem calculateBearing_self (a b : ℝ) : calculateBearing a b a b = 0 := by
  unfold calculateBearing
  simp only []
  have hy : Real.sin (b * Real.pi / 180 - b * Real.pi / 180) *
      Real.cos (a * Real.pi / 180) = 0 := by
    simp
  have hx : Real.cos (a * Real.pi / 180) * Real.sin (a * Real.pi / 180) -
      Real.sin (a * Real.pi / 180) * Real.cos (a * Real.pi / 180) *
      Real.cos (b * Real.pi / 180 - b * Real.pi / 180) = 0 := by
    simp [mul_comm]
  rw [hy, hx]
  have h0 : atan2 0 0 = 0 := by
    unfold atan2
    have hz : (⟨(0 : ℝ), (0 : ℝ)⟩ : ℂ) = 0 := rfl
    rw [hz, Complex.arg_zero]
  rw [h0]
  norm_num

/-- C8: for valid coordinates the bearing lies in `[0, 360)`, and the
bearing from a point to itself is 0. -/
theorem C8_bearing_range_and_degenerate (lat1 lng1 lat2 lng2 : ℝ)
    (h1 : -90 ≤ lat1) (h2 : lat1 ≤ 90) (h3 : -180 ≤ lng1) (h4 : lng1 ≤ 180)
    (h5 : -90 ≤ lat2) (h6 : lat2 ≤ 90) (h7 : -180 ≤ lng2) (h8 : lng2 ≤ 180) :
    (0 ≤ calculateBearing lat1 lng1 lat2 lng2 ∧
      calculateBearing lat1 lng1 lat2 lng2 < 360) ∧
    calculateBearing lat1 lng1 lat1 lng1 = 0 :=
  ⟨calculateBearing_mem lat1 lng1 lat2 lng2, calculateBearing_self lat1 lng1⟩

/-- Witness for C8 at New York City and London. -/
theorem C8_bearing_range_and_degenerate_witness :
    (0 ≤ calculateBearing 40.7128 (-74.006) 51.5074 (-0.1278) ∧
      calculateBearing 40.7128 (-74.006) 51.5074 (-0.1278) < 360) ∧
    calculateBearing 40.7128 (-74.006) 40.7128 (-74.006) = 0 :=
  C8_bearing_range_and_degenerate 40.7128 (-74.006) 51.5074 (-0.1278)
    (by norm_num) (by norm_num) (by norm_num) (by norm_num)
    (by norm_num) (by norm_num) (by norm_num) (by norm_num)

/-- C10: `generateRoutePath` returns `pointsCount + 1` points, point `i`
being the linear interpolation `start + (i / pointsCount) * (dest - start)`;
the first point is exactly the start and the last exactly the
destination.  (Determinism is inherent: the function consumes no random
source.) -/
theorem C10_generateRoutePath_interpolation (sLat sLng dLat dLng : ℝ) (n : ℕ)
    (h : 0 < n) :
    (generateRoutePath sLat sLng dLat dLng n).length = n + 1 ∧
    (∀ i, i ≤ n → (generateRoutePath sLat sLng dLat dLng n)[i]? =
      some { latitude := sLat + (i : ℝ) / (n : ℝ) * (dLat - sLat),
             longitude := sLng + (i : ℝ) / (n : ℝ) * (dLng - sLng) }) ∧
    (generateRoutePath sLat sLng dLat dLng n).head? =
      some { latitude := sLat, longitude := sLng } ∧
    (generateRoutePath sLat sLng dLat dLng n).getLast? =
      some { latitude := dLat, longitude := dLng } := by
  have hidx : ∀ i, i ≤ n → (generateRoutePath sLat sLng dLat dLng n)[i]? =
      some { latitude := sLat + (i : ℝ) / (n : ℝ) * (dLat - sLat),
             longitude := sLng + (i : ℝ) / (n : ℝ) * (dLng - sLng) } := by
    intro i hi
    unfold generateRoutePath
    rw [List.getElem?_map, List.getElem?_range (by omega)]
    rfl
  refine ⟨by simp [generateRoutePath], hidx, ?_, ?_⟩
  · rw [List.head?_eq_getElem?, hidx 0 (by omega)]
    norm_num
  · have hlen : (generateRoutePath sLat sLng dLat dLng n).length = n + 1 := by
      simp [generateRoutePath]
    rw [List.getLast?_eq_getElem?, hlen]
    have h1 : n + 1 - 1 = n := by omega
    rw [h1, hidx n (by omega)]
    have hn : (n : ℝ) ≠ 0 := Nat.cast_ne_zero.mpr (by omega)
    have h2 : (n : ℝ) / (n : ℝ) = 1 := div_self hn
    rw [h2]
    congr 1
    congr 1 <;> ring

/-- Witness for C10 at the default point count of 10. -/
theorem C10_generateRoutePath_interpolation_witness :
    (generateRoutePath 40 (-74) 41 (-75) 10).length = 10 + 1 ∧
    (∀ i, i ≤ 10 → (generateRoutePath 40 (-74) 41 (-75) 10)[i]? =
      some { latitude := 40 + (i : ℝ) / (10 : ℕ) * (41 - 40),
             longitude := -74 + (i : ℝ) / (10 : ℕ) * (-75 - -74) }) ∧
    (generateRoutePath 40 (-74) 41 (-75) 10).head? =
      some { latitude := 40, longitude := -74 } ∧
    (generateRoutePath 40 (-74) 41 (-75) 10).getLast? =
      some { latitude := 41, longitude := -75 } :=
  C10_generateRoutePath_interpolation 40 (-74) 41 (-75) 10 (by decide)

theorem optIncl_toList_any (nq : JsStr) (o : Option JsStr) :
    (o.toList.any fun f => hasSubstr nq (jsToLower f)) = optIncl o nq := by
  cases o <;> simp [optIncl]

theorem optIncl_filterMap_any (nq : JsStr) (l : List (Option JsStr)) :
    ((l.filterMap id).any fun f => hasSubstr nq (jsToLower f)) =
      l.any fun o => optIncl o nq := by
  induction l with
  | nil => rfl
  | cons o rest ih => cases o <;> simp [optIncl, ih]

/-- C9 counterexample: on the empty query the claim's subsequence
contains every location (the empty string is a substring of every
field), but `filterLocations` returns the empty list. -/
theorem C9_filterLocations_empty_query_cex :
    filterLocations
      [{ id := ['x'], name := ['a'], latitude := 0, longitude := 0 }] [] ≠
    [{ id := ['x'], name := ['a'], latitude := 0, longitude := 0 }].filter
      (specMatch []) := by
  have h1 : filterLocations
      [{ id := ['x'], name := ['a'], latitude := 0, longitude := 0 }]
      ([] : JsStr) = [] := rfl
  have h2 : [{ id := ['x'], name := ['a'], latitude := 0, longitude := 0 }].filter
      (specMatch []) =
      [{ id := ['x'], name := ['a'], latitude := 0, longitude := 0 }] := rfl
  rw [h1, h2]
  simp

/-- C9 as amended: for a query that trims to the empty string the result
is empty; otherwise `filterLocations` is exactly the order-preserving
filter of the locations one of whose searched fields (name, present
street/district/city/state/country/postalCode address sub-fields,
category, description) contains the lowercased trimmed query. -/
theorem C9_filterLocations_amended (locs : List LocationResult) (q : JsStr) :
    filterLocations locs q =
      if jsTrim q = [] then [] else locs.filter (specMatch q) := by
  unfold filterLocations
  split
  · rfl
  · apply List.filter_congr
    intro loc _
    show matchesQuery (jsTrim (jsToLower q)) loc = specMatch q loc
    obtain ⟨lid, lname, ldesc, lcat, laddr, llat, llng, lfav⟩ := loc
    unfold matchesQuery specMatch fieldsOf
    simp only [List.any_append, optIncl_toList_any, optIncl_filterMap_any]
    cases laddr with
    | none => cases lcat <;> cases ldesc <;> simp [optIncl, Bool.or_assoc]
    | some a =>
      obtain ⟨an, ast, adi, aci, asa, aco, apc⟩ := a
      cases ast <;> cases adi <;> cases aci <;> cases asa <;> cases aco <;>
        cases apc <;> cases lcat <;> cases ldesc <;>
        simp [optIncl, Bool.or_assoc]

theorem reorder_ids_sublist (ids : List String) (ws : List Waypoint) :
    ((reorderWaypoints ids ws).map fun w => w.id).Sublist ids := by
  induction ids with
  | nil => simp [reorderWaypoints]
  | cons id rest ih =>
    unfold reorderWaypoints at ih ⊢
    rw [List.filterMap_cons]
    cases h : ws.find? (fun wp => wp.id == id) with
    | none => exact ih.cons id
    | some w =>
      have hid : w.id = id := by
        have := List.find?_some h
        simpa using this
      simpa [hid] using ih.cons₂ id

/-- C7 counterexample: add one waypoint at timestamp 1, then call
`reorderWaypoints` with the id list `["1", "1"]`: the waypoint is found
twice and the resulting sequence carries the id "1" twice, although the
state is reachable through the three waypoint mutators. -/
theorem C7_waypoint_ids_cex :
    WReach (reorderWaypoints ["1", "1"]
      (addWaypoint 1 { latitude := 0, longitude := 0 } [])) ∧
    ¬ ((reorderWaypoints ["1", "1"]
      (addWaypoint 1 { latitude := 0, longitude := 0 } [])).map
        fun w => w.id).Nodup := by
  constructor
  · exact WReach.reorder ["1", "1"] (WReach.add 1 _ WReach.init)
  · have h : (reorderWaypoints ["1", "1"]
        (addWaypoint 1 { latitude := 0, longitude := 0 } [])).map
        (fun w => w.id) = ["1", "1"] := rfl
    rw [h]
    decide

/-- C7 as amended: waypoint ids stay pairwise distinct over every
sequence of the three waypoint mutators in which each `addWaypoint` call
happens at a timestamp whose string form is not an id already present
and each `reorderWaypoints` call receives a duplicate-free id list. -/
theorem C7_waypoint_ids_nodup (ws : List Waypoint) (h : WReachOK ws) :
    (ws.map fun w => w.id).Nodup := by
  induction h with
  | init => simp
  | add now l hws hfresh ih =>
    rename_i ws'
    unfold addWaypoint
    rw [List.map_append]
    simp only [List.map_cons, List.map_nil]
    rw [List.nodup_append]
    refine ⟨ih, List.nodup_singleton _, ?_⟩
    intro x hx hx1
    simp only [List.mem_singleton] at hx1
    obtain ⟨w, hw, rfl⟩ := List.mem_map.mp hx
    exact hfresh w hw (hx1 ▸ rfl)
  | remove id hws ih =>
    exact ((List.filter_sublist _).map _).nodup ih
  | reorder ids hws hnodup ih =>
    exact (reorder_ids_sublist ids _).nodup hnodup

/-- Witness for C7 as amended: two adds at distinct timestamps. -/
theorem C7_waypoint_ids_nodup_witness :
    ((addWaypoint 2 { latitude := 1, longitude := 1 }
      (addWaypoint 1 { latitude := 0, longitude := 0 } [])).map
        fun w => w.id).Nodup :=
  C7_waypoint_ids_nodup _
    (WReachOK.add 2 _
      (WReachOK.add 1 _ WReachOK.init (by simp))
      (by simp only [addWaypoint, List.nil_append, List.mem_singleton]
          intro w hw
          subst hw
          decide))

theorem turnsLoop_eq (path : List Location) :
    ∀ n i, path.length - 1 - i = n →
    turnsLoop path i = (List.range' i n).filterMap fun j =>
      if 20 < |bearingChange path j - 180| then some (mkInteriorTurn path j)
      else none := by
  intro n
  induction n with
  | zero =>
    intro i h
    rw [turnsLoop]
    have hn : ¬ i < path.length - 1 := by omega
    simp [hn]
  | succ m ih =>
    intro i h
    rw [turnsLoop]
    have hi : i < path.length - 1 := by omega
    rw [if_pos hi]
    rw [show (m + 1) = m + 1 from rfl, List.range'_succ, List.filterMap_cons]
    rw [ih (i + 1) (by omega)]
    by_cases hc : 20 < |bearingChange path i - 180|
    · rw [if_pos hc, if_pos hc]
      rfl
    · rw [if_neg hc, if_neg hc]
      rfl

/-- C2 as amended: for a path of at least 3 points, `calculateTurns` is
the start marker, then exactly those interior points `i` (taken in order
over `1 ≤ i ≤ N - 2`) whose normalized bearing change `bc` satisfies
`|bc - 180| > 20`, then the arrival marker.  Equivalently, the points
omitted from the turn list are the near-reversal ones (`bc` within 20
degrees of 180), not the near-straight ones as the original claim's
gloss said. -/
theorem C2_calculateTurns_interior_filter (path : List Location)
    (h : 3 ≤ path.length) :
    calculateTurns path =
      startTurn path ::
        (((List.range' 1 (path.length - 2)).filterMap fun j =>
          if 20 < |bearingChange path j - 180| then some (mkInteriorTurn path j)
          else none) ++ [arriveTurn path]) := by
  unfold calculateTurns
  rw [if_neg (by omega), turnsLoop_eq path (path.length - 2) 1 (by omega)]

/-- Witness for C2 on a concrete three-point path. -/
theorem C2_calculateTurns_interior_filter_witness :
    calculateTurns [{ latitude := 0, longitude := 0 },
        { latitude := 1, longitude := 0 }, { latitude := 1, longitude := 1 }] =
      startTurn [{ latitude := 0, longitude := 0 },
        { latitude := 1, longitude := 0 }, { latitude := 1, longitude := 1 }] ::
        (((List.range' 1 1).filterMap fun j =>
          if 20 < |bearingChange [{ latitude := 0, longitude := 0 },
              { latitude := 1, longitude := 0 },
              { latitude := 1, longitude := 1 }] j - 180|
          then some (mkInteriorTurn [{ latitude := 0, longitude := 0 },
              { latitude := 1, longitude := 0 },
              { latitude := 1, longitude := 1 }] j)
          else none) ++
          [arriveTurn [{ latitude := 0, longitude := 0 },
            { latitude := 1, longitude := 0 }, { latitude := 1, longitude := 1 }]]) :=
  C2_calculateTurns_interior_filter _ (by simp)

theorem splice_length {α : Type} (l : List α) (n : ℕ) (a : α) (h : n ≤ l.length) :
    (splice l n a).length = l.length + 1 := by
  simp [splice]
  omega

theorem splice_head {α : Type} (x : α) (xs : List α) (n : ℕ) (a : α) :
    (splice (x :: xs) (n + 1) a).head? = some x := by
  simp [splice, List.take_succ_cons]

theorem detourLoop_facts (rand : ℕ → ℝ) :
    ∀ m (path : List Location) i k, path.length - i ≤ m → 1 ≤ i →
      (detourLoop rand path i k).1.head? = path.head? ∧
      path.length ≤ (detourLoop rand path i k).1.length := by
  intro m
  induction m with
  | zero =>
    intro path i k hm hi
    rw [detourLoop]
    have h : ¬ i < path.length - 1 := by omega
    rw [if_neg h]
    exact ⟨rfl, le_refl _⟩
  | succ m ih =>
    intro path i k hm hi
    rw [detourLoop]
    by_cases h1 : i < path.length - 1
    · rw [if_pos h1]
      by_cases h2 : rand k > 0.5 ∧ i + 1 < path.length
      · rw [if_pos h2]
        simp only []
        have key : ∀ a : Location,
            (detourLoop rand (splice path (i + 1) a) (i + 3) (k + 2)).1.head? =
              path.head? ∧
            path.length ≤
              (detourLoop rand (splice path (i + 1) a) (i + 3) (k + 2)).1.length := by
          intro a
          have hl : (splice path (i + 1) a).length = path.length + 1 :=
            splice_length _ _ _ (by omega)
          obtain ⟨ih1, ih2⟩ := ih (splice path (i + 1) a) (i + 3) (k + 2)
            (by omega) (by omega)
          refine ⟨?_, by omega⟩
          rw [ih1]
          cases path with
          | nil => simp at h1
          | cons x xs => exact splice_head x xs i a
        exact key _
      · rw [if_neg h2]
        exact ih path (i + 2) (k + 1) (by omega) (by omega)
    · rw [if_neg h1]
      exact ⟨rfl, le_refl _⟩

theorem gridSteps_pos (x : ℝ) : 1 ≤ gridSteps x := by
  unfold gridSteps
  split
  · rename_i h
    have h2 : (1 : ℝ) ≤ |x| / 0.005 := by
      rw [le_div_iff₀ (by norm_num)]
      linarith
    have h3 : (1 : ℤ) ≤ ⌊|x| / 0.005⌋ := Int.le_floor.mpr (by exact_mod_cast h2)
    omega
  · exact le_refl 1

theorem gridPoints_length (rand : ℕ → ℝ) (k : ℕ) (sLat sLng eLat eLng : ℝ) :
    (gridPoints rand k sLat sLng eLat eLng).length =
      gridSteps (eLat - sLat) + gridSteps (eLng - sLng) := by
  unfold gridPoints
  simp only []
  split <;> simp [Nat.add_comm]

theorem gen_route_facts (rand : ℕ → ℝ) (k : ℕ) (sLat sLng eLat eLng : ℝ) :
    3 ≤ (generateStreetBasedRoute rand k sLat sLng eLat eLng).1.length ∧
    (generateStreetBasedRoute rand k sLat sLng eLat eLng).1.head? =
      some { latitude := sLat, longitude := sLng } ∧
    (generateStreetBasedRoute rand k sLat sLng eLat eLng).1.getLast? =
      some { latitude := eLat, longitude := eLng } := by
  unfold generateStreetBasedRoute
  simp only []
  set bp : List Location := { latitude := sLat, longitude := sLng } ::
    gridPoints rand k sLat sLng eLat eLng with hbp
  set k1 : ℕ := k + gridSteps (eLat - sLat) + gridSteps (eLng - sLng) with hk1
  set d : List Location × ℕ :=
    if bp.length > 3 then detourLoop rand bp 1 k1 else (bp, k1) with hd0
  have hbase : 3 ≤ bp.length := by
    rw [hbp]
    simp [gridPoints_length]
    have := gridSteps_pos (eLat - sLat)
    have := gridSteps_pos (eLng - sLng)
    omega
  have hd : d.1.head? = some { latitude := sLat, longitude := sLng } ∧
      3 ≤ d.1.length := by
    rw [hd0]
    split
    · obtain ⟨h1, h2⟩ := detourLoop_facts rand (bp.length - 1) bp 1 k1
        (le_refl _) (le_refl _)
      refine ⟨?_, by omega⟩
      rw [h1, hbp]
      rfl
    · exact ⟨rfl, hbase⟩
  refine ⟨?_, ?_, List.getLast?_concat _⟩
  · have := hd.2
    simp only [List.length_append, List.length_cons, List.length_nil]
    omega
  · rw [List.head?_append, hd.1]
    rfl

theorem head?_dropLast_of_two {α : Type} (l : List α) (h : 2 ≤ l.length) :
    l.dropLast.head? = l.head? := by
  cases l with
  | nil => simp at h
  | cons a t =>
    cases t with
    | nil => simp at h
    | cons b t2 => rfl

theorem bcp_facts (rand : ℕ → ℝ) :
    ∀ (rest : List Location) (k : ℕ) (cur : Location), rest ≠ [] →
      3 ≤ (buildCompletePath rand k cur rest).1.length ∧
      (buildCompletePath rand k cur rest).1.head? =
        some { latitude := cur.latitude, longitude := cur.longitude } ∧
      ∀ dl, rest.getLast? = some dl →
        (buildCompletePath rand k cur rest).1.getLast? =
          some { latitude := dl.latitude, longitude := dl.longitude } := by
  intro rest
  induction rest with
  | nil => intro k cur h; exact absurd rfl h
  | cons d rest ih =>
    intro k cur _
    cases rest with
    | nil =>
      obtain ⟨g1, g2, g3⟩ := gen_route_facts rand k cur.latitude cur.longitude
        d.latitude d.longitude
      refine ⟨g1, g2, ?_⟩
      intro dl hdl
      simp only [List.getLast?_singleton, Option.some_inj] at hdl
      subst hdl
      exact g3
    | cons e rest2 =>
      obtain ⟨t1, t2, t3⟩ := ih (generateStreetBasedRoute rand k cur.latitude
        cur.longitude d.latitude d.longitude).2 d (by simp)
      obtain ⟨g1, g2, g3⟩ := gen_route_facts rand k cur.latitude cur.longitude
        d.latitude d.longitude
      have hstep : (buildCompletePath rand k cur (d :: e :: rest2)).1 =
          (generateStreetBasedRoute rand k cur.latitude cur.longitude
            d.latitude d.longitude).1.dropLast ++
          (buildCompletePath rand (generateStreetBasedRoute rand k cur.latitude
            cur.longitude d.latitude d.longitude).2 d (e :: rest2)).1 := rfl
      rw [hstep]
      refine ⟨?_, ?_, ?_⟩
      · simp only [List.length_append]
        omega
      · rw [List.head?_append, head?_dropLast_of_two _ (by omega), g2]
        rfl
      · intro dl hdl
        rw [List.getLast?_append, t3 dl ?_]
        · rfl
        · simpa using hdl

/-- C1: after a successful `startNavigation` (both endpoints set), for
every outcome of the random jitter stream the route has at least 2
points, starts exactly at the current location's coordinates, ends
exactly at the destination's coordinates, and the turn list starts with
"Start navigation" and ends with "Arrive at destination". -/
theorem C1_startNavigation_route_endpoints (rand : ℕ → ℝ) (now : ℝ)
    (s : NavState) (cur dest : Location) (hc : s.currentLocation = some cur)
    (hd : s.destination = some dest) :
    2 ≤ (startNavigation rand now s).routePath.length ∧
    ((startNavigation rand now s).routePath.head?).map
      (fun l => (l.latitude, l.longitude)) = some (cur.latitude, cur.longitude) ∧
    ((startNavigation rand now s).routePath.getLast?).map
      (fun l => (l.latitude, l.longitude)) =
        some (dest.latitude, dest.longitude) ∧
    ((startNavigation rand now s).turns.head?).map TurnDirection.instruction =
      some "Start navigation" ∧
    ((startNavigation rand now s).turns.getLast?).map TurnDirection.instruction =
      some "Arrive at destination" := by
  obtain ⟨b1, b2, b3⟩ := bcp_facts rand
    (s.waypoints.map Waypoint.toLocation ++ [dest]) 0 cur (by simp)
  have hlast := b3 dest (List.getLast?_concat _)
  have hstate : startNavigation rand now s = { s with
      routePath := (buildCompletePath rand 0 cur
        (s.waypoints.map Waypoint.toLocation ++ [dest])).1,
      isNavigating := true,
      turns := calculateTurns (buildCompletePath rand 0 cur
        (s.waypoints.map Waypoint.toLocation ++ [dest])).1,
      currentStep := 0,
      estimatedTimeOfArrival := some (calculateETA now (buildCompletePath rand 0
        cur (s.waypoints.map Waypoint.toLocation ++ [dest])).1).1,
      estimatedDistance := some (calculateETA now (buildCompletePath rand 0 cur
        (s.waypoints.map Waypoint.toLocation ++ [dest])).1).2 } := by
    unfold startNavigation
    rw [hc, hd]
  rw [hstate]
  set cp := (buildCompletePath rand 0 cur
    (s.waypoints.map Waypoint.toLocation ++ [dest])).1 with hcp
  have hct : calculateTurns cp = startTurn cp :: (turnsLoop cp 1 ++ [arriveTurn cp]) := by
    unfold calculateTurns
    rw [if_neg (by omega)]
  refine ⟨by show 2 ≤ cp.length; omega, ?_, ?_, ?_, ?_⟩
  · show (cp.head?).map _ = _
    rw [b2]
    rfl
  · show (cp.getLast?).map _ = _
    rw [hlast]
    rfl
  · show ((calculateTurns cp).head?).map _ = _
    rw [hct]
    rfl
  · show ((calculateTurns cp).getLast?).map _ = _
    rw [hct, ← List.cons_append, List.getLast?_concat]
    rfl

/-- Witness for C1 on a concrete state with both endpoints set. -/
theorem C1_startNavigation_route_endpoints_witness :
    2 ≤ (startNavigation (fun _ => 0) 0
      { currentLocation := some { latitude := 40, longitude := -74 },
        destination := some { latitude := 40.1, longitude := -74.1 } }).routePath.length ∧
    ((startNavigation (fun _ => 0) 0
      { currentLocation := some { latitude := 40, longitude := -74 },
        destination := some { latitude := 40.1, longitude := -74.1 } }).routePath.head?).map
      (fun l => (l.latitude, l.longitude)) = some ((40 : ℝ), (-74 : ℝ)) ∧
    ((startNavigation (fun _ => 0) 0
      { currentLocation := some { latitude := 40, longitude := -74 },
        destination := some { latitude := 40.1, longitude := -74.1 } }).routePath.getLast?).map
      (fun l => (l.latitude, l.longitude)) = some ((40.1 : ℝ), (-74.1 : ℝ)) ∧
    ((startNavigation (fun _ => 0) 0
      { currentLocation := some { latitude := 40, longitude := -74 },
        destination := some { latitude := 40.1, longitude := -74.1 } }).turns.head?).map
      TurnDirection.instruction = some "Start navigation" ∧
    ((startNavigation (fun _ => 0) 0
      { currentLocation := some { latitude := 40, longitude := -74 },
        destination := some { latitude := 40.1, longitude := -74.1 } }).turns.getLast?).map
      TurnDirection.instruction = some "Arrive at destination" :=
  C1_startNavigation_route_endpoints (fun _ => 0) 0
    { currentLocation := some { latitude := 40, longitude := -74 },
      destination := some { latitude := 40.1, longitude := -74.1 } }
    { latitude := 40, longitude := -74 } { latitude := 40.1, longitude := -74.1 }
    rfl rfl

theorem startNavigation_none (rand : ℕ → ℝ) (now : ℝ) (s : NavState)
    (h : s.currentLocation = none ∨ s.destination = none) :
    startNavigation rand now s = s := by
  unfold startNavigation
  rcases h with h | h
  · rw [h]
  · rw [h]
    cases s.currentLocation <;> rfl

theorem startNavigation_some (rand : ℕ → ℝ) (now : ℝ) (s : NavState)
    (cur dest : Location) (hc : s.currentLocation = some cur)
    (hd : s.destination = some dest) :
    startNavigation rand now s = { s with
      routePath := (buildCompletePath rand 0 cur
        (s.waypoints.map Waypoint.toLocation ++ [dest])).1,
      isNavigating := true,
      turns := calculateTurns (buildCompletePath rand 0 cur
        (s.waypoints.map Waypoint.toLocation ++ [dest])).1,
      currentStep := 0,
      estimatedTimeOfArrival := some (calculateETA now (buildCompletePath rand 0
        cur (s.waypoints.map Waypoint.toLocation ++ [dest])).1).1,
      estimatedDistance := some (calculateETA now (buildCompletePath rand 0 cur
        (s.waypoints.map Waypoint.toLocation ++ [dest])).1).2 } := by
  unfold startNavigation
  rw [hc, hd]

theorem calculateTurns_distance_nonneg (path : List Location) :
    ∀ t ∈ calculateTurns path, 0 ≤ t.distance := by
  intro t ht
  unfold calculateTurns at ht
  split at ht
  · simp at ht
  · rename_i h
    simp only [List.mem_cons, List.mem_append, List.mem_singleton,
      List.not_mem_nil, or_false] at ht
    rcases ht with rfl | ht | rfl
    · exact le_refl 0
    · rw [turnsLoop_eq path (path.length - 2) 1 (by omega)] at ht
      obtain ⟨j, hj, hjt⟩ := List.mem_filterMap.mp ht
      split at hjt
      · cases hjt
        exact calculateDistance_nonneg _ _ _ _
      · cases hjt
    · exact calculateDistance_nonneg _ _ _ _

theorem calculateTurns_length_pos (path : List Location) (h : 3 ≤ path.length) :
    0 < (calculateTurns path).length := by
  unfold calculateTurns
  rw [if_neg (by omega)]
  simp

theorem reach_invariant (s : NavState) (h : Reach s) :
    (s.isNavigating = true → s.currentStep < s.turns.length) ∧
    (∀ t ∈ s.turns, 0 ≤ t.distance) := by
  induction h with
  | init => exact ⟨by intro h; simp [initState] at h, by intro t ht; simp [initState] at ht⟩
  | setCur l hr ih => exact ih
  | setDest l hr ih => exact ih
  | addW now l hr ih => exact ih
  | removeW id hr ih => exact ih
  | reorderW ids hr ih => exact ih
  | startNav rand now hr ih =>
    rename_i s'
    cases hc : s'.currentLocation with
    | none => rw [startNavigation_none rand now s' (Or.inl hc)]; exact ih
    | some cur =>
      cases hd : s'.destination with
      | none => rw [startNavigation_none rand now s' (Or.inr hd)]; exact ih
      | some dest =>
        rw [startNavigation_some rand now s' cur dest hc hd]
        have hlen := (bcp_facts rand
          (s'.waypoints.map Waypoint.toLocation ++ [dest]) 0 cur (by simp)).1
        constructor
        · intro _
          exact calculateTurns_length_pos _ hlen
        · exact calculateTurns_distance_nonneg _
  | endNav hr ih =>
    constructor
    · intro h
      simp [endNavigation] at h
    · intro t ht
      simp [endNavigation] at ht
  | tick hr ih =>
    rename_i s1
    unfold progressTick
    split
    · exact ih
    · rename_i hcond
      split
      · rename_i hlt
        obtain ⟨hnav, hlen⟩ := not_or.mp hcond
        constructor
        · intro _
          show s1.currentStep + 1 < s1.turns.length
          omega
        · exact ih.2
      · exact ih

/-- C5: in every reachable state, while navigating the step cursor is a
valid index into the turn list (it is a natural number, hence at least
0); a progress-timer tick never decreases it, changes it by at most 1,
advances it by exactly 1 while navigating strictly below the last turn
index, and leaves it unchanged once it has reached the last turn
index. -/
theorem C5_currentStep_monotone_bounded (s : NavState) (h : Reach s) :
    (s.isNavigating = true → s.currentStep < s.turns.length) ∧
    s.currentStep ≤ (progressTick s).currentStep ∧
    ((progressTick s).currentStep = s.currentStep ∨
      (progressTick s).currentStep = s.currentStep + 1) ∧
    (s.isNavigating = true → s.turns ≠ [] →
      s.currentStep < s.turns.length - 1 →
      (progressTick s).currentStep = s.currentStep + 1) ∧
    (s.turns.length - 1 ≤ s.currentStep →
      (progressTick s).currentStep = s.currentStep) := by
  refine ⟨(reach_invariant s h).1, ?_, ?_, ?_, ?_⟩
  · unfold progressTick
    split
    · exact le_refl _
    · split
      · exact Nat.le_succ _
      · exact le_refl _
  · unfold progressTick
    split
    · exact Or.inl rfl
    · split
      · exact Or.inr rfl
      · exact Or.inl rfl
  · intro hnav hne hlt
    unfold progressTick
    rw [if_neg (by simp [hnav, hne]), if_pos hlt]
  · intro hge
    unfold progressTick
    split
    · rfl
    · rw [if_neg (by omega)]

/-- Witness for C5 at the initial state. -/
theorem C5_currentStep_monotone_bounded_witness :
    (initState.isNavigating = true →
      initState.currentStep < initState.turns.length) ∧
    initState.currentStep ≤ (progressTick initState).currentStep ∧
    ((progressTick initState).currentStep = initState.currentStep ∨
      (progressTick initState).currentStep = initState.currentStep + 1) ∧
    (initState.isNavigating = true → initState.turns ≠ [] →
      initState.currentStep < initState.turns.length - 1 →
      (progressTick initState).currentStep = initState.currentStep + 1) ∧
    (initState.turns.length - 1 ≤ initState.currentStep →
      (progressTick initState).currentStep = initState.currentStep) :=
  C5_currentStep_monotone_bounded initState Reach.init

theorem sum_take_mono_of_nonneg :
    ∀ (l : List ℝ), (∀ x ∈ l, 0 ≤ x) → ∀ m n : ℕ, m ≤ n →
      (l.take m).sum ≤ (l.take n).sum := by
  intro l
  induction l with
  | nil => intro _ m n _; simp
  | cons a t ih =>
    intro hpos m n hmn
    cases m with
    | zero =>
      simp only [List.take_zero, List.sum_nil]
      apply List.sum_nonneg
      intro x hx
      exact hpos x (List.mem_of_mem_take hx)
    | succ m' =>
      cases n with
      | zero => omega
      | succ n' =>
        simp only [List.take_succ_cons, List.sum_cons]
        have := ih (fun x hx => hpos x (List.mem_cons_of_mem a hx)) m' n' (by omega)
        linarith

theorem clamp_div_mono (A B d : ℝ) (hA : 0 ≤ A) (hAB : A ≤ B) :
    min 100 (max 0 (A / d * 100)) ≤ min 100 (max 0 (B / d * 100)) := by
  rcases lt_trichotomy d 0 with hd | hd | hd
  · have h1 : A / d ≤ 0 := div_nonpos_of_nonneg_of_nonpos hA hd.le
    have h2 : max 0 (A / d * 100) = 0 := max_eq_left (by nlinarith)
    rw [h2]
    have h3 : (min 100 0 : ℝ) = 0 := by norm_num
    rw [h3]
    exact le_min (by norm_num) (le_max_left 0 _)
  · subst hd
    simp
  · have h1 : A / d ≤ B / d := div_le_div_of_nonneg_right hAB hd.le
    exact min_le_min (le_refl _)
      (max_le_max (le_refl _) (by nlinarith))

theorem getProgress_nonneg_le100 (s : NavState) :
    0 ≤ getProgress s ∧ getProgress s ≤ 100 := by
  cases hd : s.estimatedDistance with
  | none =>
    unfold getProgress
    rw [hd]
    norm_num
  | some d =>
    unfold getProgress
    rw [hd]
    simp only []
    split
    · norm_num
    · exact ⟨le_min (by norm_num) (le_max_left 0 _), min_le_left _ _⟩

theorem getProgress_zero (s : NavState)
    (h : s.isNavigating = false ∨ s.currentStep = 0 ∨
      s.estimatedDistance = none) :
    getProgress s = 0 := by
  cases hd : s.estimatedDistance with
  | none =>
    unfold getProgress
    rw [hd]
  | some d =>
    unfold getProgress
    rw [hd]
    simp only []
    rcases h with h | h | h
    · rw [if_pos (Or.inl h)]
    · rw [if_pos (Or.inr h)]
    · rw [hd] at h
      simp at h

theorem getProgress_step_mono (s : NavState)
    (hdist : ∀ t ∈ s.turns, 0 ≤ t.distance) (c c' : ℕ) (hcc : c ≤ c') :
    getProgress { s with currentStep := c } ≤
      getProgress { s with currentStep := c' } := by
  obtain ⟨scl, sdst, srp, swp, stn, snav, seta, sed, sstep⟩ := s
  simp only at hdist
  by_cases hnav : snav = false
  · rw [getProgress_zero _ (Or.inl hnav)]
    exact (getProgress_nonneg_le100 _).1
  · by_cases hc0 : c = 0
    · rw [getProgress_zero _ (Or.inr (Or.inl hc0))]
      exact (getProgress_nonneg_le100 _).1
    · cases sed with
      | none =>
        rw [getProgress_zero _ (Or.inr (Or.inr rfl)),
          getProgress_zero _ (Or.inr (Or.inr rfl))]
      | some d =>
        have hc'0 : ¬ c' = 0 := by omega
        unfold getProgress
        simp only []
        have hg1 : ¬(snav = false ∨ c = 0) := by
          intro hcon
          rcases hcon with h1 | h1
          · exact hnav h1
          · exact hc0 h1
        have hg2 : ¬(snav = false ∨ c' = 0) := by
          intro hcon
          rcases hcon with h1 | h1
          · exact hnav h1
          · exact hc'0 h1
        rw [if_neg hg1, if_neg hg2]
        have hnn : ∀ x ∈ stn.map TurnDirection.distance, 0 ≤ x := by
          intro x hx
          obtain ⟨t, ht, rfl⟩ := List.mem_map.mp hx
          exact hdist t ht
        apply clamp_div_mono
        · show 0 ≤ ((stn.take c).map TurnDirection.distance).sum
          rw [List.map_take]
          apply List.sum_nonneg
          intro x hx
          exact hnn x (List.mem_of_mem_take hx)
        · show ((stn.take c).map TurnDirection.distance).sum ≤
            ((stn.take c').map TurnDirection.distance).sum
          rw [List.map_take, List.map_take]
          exact sum_take_mono_of_nonneg _ hnn c c' hcc

theorem getProgress_tick_mono (s : NavState) (h : Reach s) :
    getProgress s ≤ getProgress (progressTick s) := by
  have hdist := (reach_invariant s h).2
  unfold progressTick
  split
  · exact le_refl _
  · split
    · exact getProgress_step_mono s hdist s.currentStep (s.currentStep + 1)
        (Nat.le_succ _)
    · exact le_refl _

/-- C6: `getProgress` always lies in `[0, 100]`; it is 0 whenever
navigation is off, the step cursor is 0 or the distance is unknown; and
within a session (fixed turns and distance) it never decreases across a
progress-timer tick. -/
theorem C6_getProgress_bounds_zero_mono :
    (∀ s : NavState, 0 ≤ getProgress s ∧ getProgress s ≤ 100) ∧
    (∀ s : NavState, s.isNavigating = false ∨ s.currentStep = 0 ∨
      s.estimatedDistance = none → getProgress s = 0) ∧
    (∀ s : NavState, Reach s → getProgress s ≤ getProgress (progressTick s)) :=
  ⟨getProgress_nonneg_le100, getProgress_zero, getProgress_tick_mono⟩

/-- Witness for C6 at the initial state. -/
theorem C6_getProgress_bounds_zero_mono_witness :
    getProgress initState = 0 ∧
    getProgress initState ≤ getProgress (progressTick initState) :=
  ⟨C6_getProgress_bounds_zero_mono.2.1 initState (Or.inl rfl),
   C6_getProgress_bounds_zero_mono.2.2 initState Reach.init⟩

theorem atan2_zero_nonneg (x : ℝ) (hx : 0 ≤ x) : atan2 0 x = 0 := by
  unfold atan2
  have h : (⟨x, 0⟩ : ℂ) = (x : ℂ) := Complex.ext rfl rfl
  rw [h]
  exact Complex.arg_ofReal_of_nonneg hx

theorem bearing_due_north (a b : ℝ) (hab : a < b) (ha : 0 ≤ a) (hb : b ≤ 90) :
    calculateBearing a 0 b 0 = 0 := by
  unfold calculateBearing
  simp only []
  have hy : Real.sin (0 * Real.pi / 180 - 0 * Real.pi / 180) *
      Real.cos (b * Real.pi / 180) = 0 := by
    norm_num
  have hxeq : Real.cos (a * Real.pi / 180) * Real.sin (b * Real.pi / 180) -
      Real.sin (a * Real.pi / 180) * Real.cos (b * Real.pi / 180) *
      Real.cos (0 * Real.pi / 180 - 0 * Real.pi / 180) =
      Real.sin (b * Real.pi / 180 - a * Real.pi / 180) := by
    rw [Real.sin_sub]
    norm_num
    ring
  have hxpos : 0 ≤ Real.sin (b * Real.pi / 180 - a * Real.pi / 180) := by
    apply Real.sin_nonneg_of_nonneg_of_le_pi
    · have := Real.pi_pos
      nlinarith
    · have h1 := Real.pi_gt_three
      nlinarith
  rw [hy, hxeq, atan2_zero_nonneg _ hxpos]
  norm_num

/-- C2 counterexample to the near-straight gloss: on the collinear path
`(0,0), (1,0), (2,0)` the interior point has bearing change 0 (a
straight continuation, within 20 degrees of 0), yet `calculateTurns`
does emit it — the filter `|bc - 180| > 20` suppresses near-reversal
points, not near-straight ones. -/
theorem C2_near_straight_point_emitted_cex :
    bearingChange [{ latitude := 0, longitude := 0 },
      { latitude := 1, longitude := 0 }, { latitude := 2, longitude := 0 }] 1 = 0 ∧
    calculateTurns [{ latitude := 0, longitude := 0 },
      { latitude := 1, longitude := 0 }, { latitude := 2, longitude := 0 }] =
      [startTurn [{ latitude := 0, longitude := 0 },
        { latitude := 1, longitude := 0 }, { latitude := 2, longitude := 0 }],
       mkInteriorTurn [{ latitude := 0, longitude := 0 },
        { latitude := 1, longitude := 0 }, { latitude := 2, longitude := 0 }] 1,
       arriveTurn [{ latitude := 0, longitude := 0 },
        { latitude := 1, longitude := 0 }, { latitude := 2, longitude := 0 }]] := by
  have h01 : segBearing [{ latitude := 0, longitude := 0 },
      { latitude := 1, longitude := 0 }, { latitude := 2, longitude := 0 }] 0 1 = 0 := by
    have e : segBearing [{ latitude := 0, longitude := 0 },
        { latitude := 1, longitude := 0 }, { latitude := 2, longitude := 0 }] 0 1 =
        calculateBearing 0 0 1 0 := rfl
    rw [e]
    exact bearing_due_north 0 1 (by norm_num) (by norm_num) (by norm_num)
  have h12 : segBearing [{ latitude := 0, longitude := 0 },
      { latitude := 1, longitude := 0 }, { latitude := 2, longitude := 0 }] 1 2 = 0 := by
    have e : segBearing [{ latitude := 0, longitude := 0 },
        { latitude := 1, longitude := 0 }, { latitude := 2, longitude := 0 }] 1 2 =
        calculateBearing 1 0 2 0 := rfl
    rw [e]
    exact bearing_due_north 1 2 (by norm_num) (by norm_num) (by norm_num)
  have hbc : bearingChange [{ latitude := 0, longitude := 0 },
      { latitude := 1, longitude := 0 }, { latitude := 2, longitude := 0 }] 1 = 0 := by
    have e : bearingChange [{ latitude := 0, longitude := 0 },
        { latitude := 1, longitude := 0 }, { latitude := 2, longitude := 0 }] 1 =
        jsMod (segBearing [{ latitude := 0, longitude := 0 },
          { latitude := 1, longitude := 0 }, { latitude := 2, longitude := 0 }] 1 2 -
          segBearing [{ latitude := 0, longitude := 0 },
          { latitude := 1, longitude := 0 }, { latitude := 2, longitude := 0 }] 0 1 +
          360) 360 := rfl
    rw [e, h01, h12]
    unfold jsMod truncJS
    norm_num
  refine ⟨hbc, ?_⟩
  unfold calculateTurns
  rw [if_neg (by norm_num)]
  rw [turnsLoop_eq _ 1 1 (by norm_num)]
  rw [List.range'_one, List.filterMap_cons, List.filterMap_nil]
  rw [hbc]
  rw [if_pos (by rw [zero_sub, abs_neg, abs_of_nonneg (by norm_num)]; norm_num)]
  rfl
